import Mathlib

/-!
Verification of the flag-extraction and validation utilities in
plugins/common/utils.go of jfrog-cli-core.

The Go code reads values out of a CLI flag context, applies environment
variable fallbacks, validates numeric ranges and assembles a download
configuration record.  Pure Go functions are embedded as Lean functions;
the flag context and the process environment are explicit arguments;
Go's (value, error) pairs become `α × Option ε` (the error component is
`none` exactly when the Go error is nil, and a returned nil pointer is
`none` in an `Option`).
-/

namespace Common

/-- Model of `*components.Context`: the per-invocation read-only view of the
CLI flags (which flags were explicitly supplied, their string and boolean
values) and the positional arguments. -/
structure Context where
  IsFlagSet : String → Bool
  GetStringFlagValue : String → String
  GetBoolFlagValue : String → Bool
  Arguments : List String

/-- Model of the process environment (`os.Getenv` returns the empty string
for an unset variable). -/
abbrev Env : Type := String → String

/-- The two error kinds of Go's `strconv` parse functions. -/
inductive GoErr where
  | syntaxErr : GoErr
  | rangeErr : GoErr
deriving Repr, DecidableEq

/-! ### Model of the Go standard library parsers used by the source -/

/-- Decimal digit accumulation loop of `strconv.ParseUint` with base 10:
every character must be an ASCII digit (base 10 admits neither letters nor
underscores); the accumulated value is returned unbounded, range clamping
is applied by the caller. -/
def decLoop : List Char → Nat → Option Nat
  | [], acc => some acc
  | c :: rest, acc =>
    if '0' ≤ c ∧ c ≤ '9' then decLoop rest (acc * 10 + (c.toNat - 48)) else none

/-- Model of `strconv.ParseInt(s, 10, 64)` (and of `strconv.Atoi` on a
64-bit platform): optional sign, then at least one decimal digit.  On a
syntax error Go returns value 0; on a range error it returns the clamped
bound; both together with a non-nil error. -/
def goParseInt10 (s : String) : Int × Option GoErr :=
  match s.data with
  | [] => (0, some GoErr.syntaxErr)
  | c0 :: rest =>
    let neg := c0 = '-'
    let body := if c0 = '+' ∨ c0 = '-' then rest else c0 :: rest
    match body with
    | [] => (0, some GoErr.syntaxErr)
    | _ =>
      match decLoop body 0 with
      | none => (0, some GoErr.syntaxErr)
      | some m =>
        if neg then
          if (m : Int) > 2 ^ 63 then (-(2 ^ 63), some GoErr.rangeErr)
          else (-(m : Int), none)
        else
          if (m : Int) ≥ 2 ^ 63 then (2 ^ 63 - 1, some GoErr.rangeErr)
          else ((m : Int), none)

/-- Digit value of a character as computed by `strconv.ParseUint`:
ASCII digits, then case-insensitive letters starting at 10. -/
def charDigitVal (c : Char) : Option Nat :=
  if '0' ≤ c ∧ c ≤ '9' then some (c.toNat - 48)
  else if 'a' ≤ c ∧ c ≤ 'z' then some (c.toNat - 97 + 10)
  else if 'A' ≤ c ∧ c ≤ 'Z' then some (c.toNat - 65 + 10)
  else none

/-- Digit loop of `strconv.ParseUint` when called with base 0: underscores
are skipped (recorded in the returned flag), every other character must be
a digit of the detected base. Returns the accumulated value and whether an
underscore was seen. -/
def digitsLoop (base : Nat) : List Char → Nat → Bool → Option (Nat × Bool)
  | [], acc, us => some (acc, us)
  | c :: rest, acc, us =>
    if c = '_' then digitsLoop base rest acc true
    else
      match charDigitVal c with
      | none => none
      | some d => if d ≥ base then none else digitsLoop base rest (acc * base + d) us

/-- Base detection of `strconv.ParseUint` with base 0 on the unsigned body:
`0b`/`0o`/`0x` prefixes (requiring a further character), a bare leading `0`
meaning octal, otherwise decimal; the empty body is a syntax error. -/
def baseAndDigits : List Char → Option (Nat × List Char)
  | [] => none
  | '0' :: c1 :: c2 :: rest =>
    if c1 = 'b' ∨ c1 = 'B' then some (2, c2 :: rest)
    else if c1 = 'o' ∨ c1 = 'O' then some (8, c2 :: rest)
    else if c1 = 'x' ∨ c1 = 'X' then some (16, c2 :: rest)
    else some (8, c1 :: c2 :: rest)
  | '0' :: rest => some (8, rest)
  | cs => some (10, cs)

/-- Loop of Go's `underscoreOK`: `saw` is `'^'` at the beginning, `'0'`
after a digit (or base prefix), `'_'` after an underscore, `'!'` otherwise;
an underscore must sit between digits. -/
def underscoreLoop (hex : Bool) : Char → List Char → Bool
  | saw, [] => saw ≠ '_'
  | saw, c :: rest =>
    if ('0' ≤ c ∧ c ≤ '9') ∨ (hex ∧ (('a' ≤ c ∧ c ≤ 'f') ∨ ('A' ≤ c ∧ c ≤ 'F'))) then
      underscoreLoop hex '0' rest
    else if c = '_' then
      if saw ≠ '0' then false else underscoreLoop hex '_' rest
    else if saw = '_' then false
    else underscoreLoop hex '!' rest

/-- Model of `strconv`'s `underscoreOK`, run on the complete original token
(sign and base prefix included). -/
def underscoreOK (cs : List Char) : Bool :=
  let cs1 := match cs with
    | c :: rest => if c = '-' ∨ c = '+' then rest else cs
    | [] => ([] : List Char)
  match cs1 with
  | '0' :: c1 :: rest =>
    if c1 = 'b' ∨ c1 = 'B' ∨ c1 = 'o' ∨ c1 = 'O' ∨ c1 = 'x' ∨ c1 = 'X' then
      underscoreLoop (c1 = 'x' ∨ c1 = 'X') '0' rest
    else underscoreLoop false '^' cs1
  | _ => underscoreLoop false '^' cs1

/-- Model of `strconv.ParseInt(s, 0, 64)` (base auto-detection, underscores
permitted between digits), keeping only the success case: `some v` exactly
when Go returns a nil error, `none` on any syntax or range error. -/
def goParseInt0 (s : String) : Option Int :=
  match s.data with
  | [] => none
  | c0 :: rest =>
    let neg := c0 = '-'
    let body := if c0 = '+' ∨ c0 = '-' then rest else c0 :: rest
    match baseAndDigits body with
    | none => none
    | some (base, ds) =>
      match digitsLoop base ds 0 false with
      | none => none
      | some (m, us) =>
        if us ∧ ¬ underscoreOK s.data then none
        else if neg then
          if (m : Int) > 2 ^ 63 then none else some (-(m : Int))
        else
          if (m : Int) ≥ 2 ^ 63 then none else some ((m : Int))

/-- Model of `strconv.ParseBool`: the fixed sets of accepted true and false
spellings; anything else is a syntax error. -/
def goParseBool (s : String) : Option Bool :=
  if s = "1" ∨ s = "t" ∨ s = "T" ∨ s = "TRUE" ∨ s = "true" ∨ s = "True" then some true
  else if s = "0" ∨ s = "f" ∨ s = "F" ∨ s = "FALSE" ∨ s = "false" ∨ s = "False" then some false
  else none

/-- Model of `strings.Split` restricted to a one-character separator, on
the character list: groups between separators, empty groups preserved,
`[[]]` for the empty string. -/
def goSplitList (sep : Char) : List Char → List (List Char)
  | [] => [[]]
  | c :: rest =>
    if c = sep then [] :: goSplitList sep rest
    else
      match goSplitList sep rest with
      | [] => [[c]]
      | g :: gs => (c :: g) :: gs

/-- Model of `strings.Split(s, sep)` for a one-character separator. -/
def goSplit (s : String) (sep : Char) : List String :=
  (goSplitList sep s.data).map (fun l => String.mk l)

/-! ### Constants of the source file and modelled collaborator constants -/

def minSplit : String := "min-split"

def DownloadMinSplitKb : Int := 5120

def DownloadSplitCount : Int := 3

def DownloadMaxSplitCount : Int := 15

/-- Modelled from the spec: the CI-indicator environment variable name
(`coreutils.CI`), a constant of this repository outside the supplied
sources; the spec calls it "the CI environment variable". -/
def coreutilsCI : String := "CI"

/-- Modelled from the spec: "a fixed environment variable name" holding the
project key (`coreutils.Project`), a constant of this repository outside
the supplied sources. -/
def coreutilsProject : String := "JFROG_CLI_PROJECT"

/-- Modelled from the spec: the documentation URL (`coreutils.JFrogHelpUrl`),
a constant of this repository outside the supplied sources; the spec only
requires error messages to carry a documentation link. -/
def JFrogHelpUrl : String := "https://jfrog.com/help/r/"

/-- Modelled from the spec: the external collaborator
`clientutils.GetBoolEnvValue` — "best-effort boolean parse" of an
environment variable: an unset (empty) variable yields the supplied
default with no error, otherwise the value is parsed as a boolean and a
parse failure is an error (with value false). -/
def GetBoolEnvValue (env : Env) (flagName : String) (defValue : Bool) : Bool × Option GoErr :=
  let v := env flagName
  if v = "" then (defValue, none)
  else
    match goParseBool v with
    | some b => (b, none)
    | none => (false, some GoErr.syntaxErr)

/-! ### The functions of plugins/common/utils.go -/

/-- `GetStringsArrFlagValue`: if the flag is set, split its string value on
`;`; otherwise the nil slice. -/
def GetStringsArrFlagValue (c : Context) (flagName : String) : List String :=
  if c.IsFlagSet flagName then goSplit (c.GetStringFlagValue flagName) ';' else []

/-- `OverrideIntIfSet`: if the flag is set and its value parses via
`strconv.ParseInt(·, 0, 64)`, the target is replaced by the parsed value;
on a parse error (or when the flag is unset) the target is returned
unchanged. -/
def OverrideIntIfSet (field : Int) (c : Context) (fieldName : String) : Int :=
  if c.IsFlagSet fieldName then
    match goParseInt0 (c.GetStringFlagValue fieldName) with
    | none => field
    | some value => value
  else field

/-- `GetThreadsCount` delegates to `cliutils.GetThreadsCount` (repository
code outside the supplied sources), passed here as an explicit function
argument `tc` from the `threads` flag value to a (count, error) pair. -/
def GetThreadsCount (tc : String → Int × Option String) (c : Context) : Int × Option String :=
  tc (c.GetStringFlagValue "threads")

/-- `getCiValue`: true iff the CI environment variable was set to true;
any error from the boolean parse yields false. -/
def getCiValue (env : Env) : Bool :=
  match GetBoolEnvValue env coreutilsCI false with
  | (ci, none) => ci
  | (_, some _) => false

/-- `GetQuietValue`: the `quiet` flag decides when explicitly set,
otherwise the CI environment variable does. -/
def GetQuietValue (c : Context) (env : Env) : Bool :=
  if c.IsFlagSet "quiet" then c.GetBoolFlagValue "quiet"
  else getCiValue env

/-- `getOrDefaultEnv`: the argument if non-empty, otherwise the
environment variable. -/
def getOrDefaultEnv (arg : String) (envKey : String) (env : Env) : String :=
  if arg ≠ "" then arg else env envKey

/-- `GetProject`: project key from the `project` flag or the project-key
environment variable. -/
def GetProject (c : Context) (env : Env) : String :=
  getOrDefaultEnv (c.GetStringFlagValue "project") coreutilsProject env

/-- `GetDocumentationMessage`. -/
def GetDocumentationMessage : String :=
  "You can read the documentation at " ++ JFrogHelpUrl ++ "jfrog-cli"

/-- The `--min-split` validation error message built in `getMinSplit`. -/
def minSplitNumericMsg : String :=
  "The '--min-split' option should have a numeric value. " ++ GetDocumentationMessage

/-- `getMinSplit`: default when the flag value is empty; otherwise a base-10
parse whose failure aborts with `(0, error)`. -/
def getMinSplit (c : Context) (defaultMinSplit : Int) : Int × Option String :=
  if c.GetStringFlagValue minSplit ≠ "" then
    match goParseInt10 (c.GetStringFlagValue minSplit) with
    | (v, none) => (v, none)
    | (_, some _) => (0, some minSplitNumericMsg)
  else (defaultMinSplit, none)

/-- The `--split-count` numeric-parse error message of `getSplitCount`. -/
def splitCountNumericMsg : String :=
  "The '--split-count' option should have a numeric value. " ++ GetDocumentationMessage

/-- The `--split-count` maximum-exceeded error message of `getSplitCount`. -/
def splitCountMaxMsg (maxSplitCount : Int) : String :=
  "The '--split-count' option value is limited to a maximum of " ++ toString maxSplitCount ++ "."

/-- The `--split-count` negative-value error message of `getSplitCount`. -/
def splitCountNegMsg : String :=
  "the '--split-count' option cannot have a negative value"

/-- `getSplitCount`: default when the flag value is empty; otherwise
`strconv.Atoi` followed by three non-short-circuiting checks, each later
check overwriting the error of an earlier one, and the (possibly
erroneous) parsed value always returned alongside. -/
def getSplitCount (c : Context) (defaultSplitCount maxSplitCount : Int) : Int × Option String :=
  if c.GetStringFlagValue "split-count" ≠ "" then
    let p := goParseInt10 (c.GetStringFlagValue "split-count")
    let splitCount := p.1
    let err0 : Option String :=
      match p.2 with
      | some _ => some splitCountNumericMsg
      | none => none
    let err1 := if splitCount > maxSplitCount then some (splitCountMaxMsg maxSplitCount) else err0
    let err2 := if splitCount < 0 then some splitCountNegMsg else err1
    (splitCount, err2)
  else (defaultSplitCount, none)

/-- Model of `artifactoryUtils.DownloadConfiguration` (only the fields the
source assigns). -/
structure DownloadConfiguration where
  MinSplitSize : Int
  SplitCount : Int
  Threads : Int
  SkipChecksum : Bool
  Symlink : Bool
deriving Repr, DecidableEq

/-- `CreateDownloadConfiguration`: assembles the record field by field,
returning `(nil, err)` at the first failing step. -/
def CreateDownloadConfiguration (tc : String → Int × Option String) (c : Context) :
    Option DownloadConfiguration × Option String :=
  match getMinSplit c DownloadMinSplitKb with
  | (_, some e) => (none, some e)
  | (minSplitSize, none) =>
    match getSplitCount c DownloadSplitCount DownloadMaxSplitCount with
    | (_, some e) => (none, some e)
    | (splitCount, none) =>
      match GetThreadsCount tc c with
      | (_, some e) => (none, some e)
      | (threads, none) =>
        (some ⟨minSplitSize, splitCount, threads, c.GetBoolFlagValue "skip-checksum", true⟩, none)

/-- Model of `components.Flag` (an interface of this repository outside the
supplied sources): all the source uses of it is `GetName`. -/
structure Flag where
  name : String
deriving Repr, DecidableEq

def Flag.GetName (f : Flag) : String := f.name

/-- The name order used by `buildAndSortFlags`'s sort: Go compares flag
names with `<` on strings, i.e. lexicographically; a string is compared
through its character list. -/
def flagLe (a b : Flag) : Prop := a.GetName.data ≤ b.GetName.data

instance : DecidableRel flagLe :=
  fun a b => inferInstanceAs (Decidable (a.GetName.data ≤ b.GetName.data))

instance : IsTotal Flag flagLe :=
  ⟨fun a b => le_total a.GetName.data b.GetName.data⟩

instance : IsTrans Flag flagLe :=
  ⟨fun _ _ _ hab hbc => le_trans hab hbc⟩

/-- `buildAndSortFlags`: resolve each name through the (total, Go-map
indexed) flags map and sort the result by flag name; `sort.Slice`, which
guarantees exactly a name-sorted permutation, is modelled by insertion
sort. -/
def buildAndSortFlags (keys : List String) (flagsMap : String → Flag) : List Flag :=
  List.insertionSort flagLe (keys.map flagsMap)

/-- The message `GetCommandFlags` logs for an unknown command key. -/
def commandNotFoundMsg (cmdKey : String) : String :=
  "The command \"" ++ cmdKey ++ "\" is not found in commands flags map."

/-- `GetCommandFlags`: look the command key up; when absent, log an error
and return nil; otherwise build and sort the listed flags.  The second
component carries the logged message (the function itself never returns an
error). -/
def GetCommandFlags (cmdKey : String) (commandToFlags : List (String × List String))
    (flagsMap : String → Flag) : List Flag × Option String :=
  match commandToFlags.lookup cmdKey with
  | none => ([], some (commandNotFoundMsg cmdKey))
  | some flagList => (buildAndSortFlags flagList flagsMap, none)

/-! ### Concrete fixtures used to exercise the theorems -/

/-- A flag context from an association list: a flag is explicitly set iff
its name is a key; string values come from the list; boolean flags are all
false; no positional arguments. -/
def mkCtx (vals : List (String × String)) : Context :=
  ⟨fun f => (vals.lookup f).isSome, fun f => (vals.lookup f).getD "", fun _ => false, []⟩

/-- A thread-count helper that always succeeds with 3 threads. -/
def tcOk : String → Int × Option String := fun _ => (3, none)

def ctxEmpty : Context := mkCtx []

def ctxSplit7 : Context := mkCtx [("split-count", "7")]

def ctxSplit16 : Context := mkCtx [("split-count", "16")]

def ctxSplitNeg1 : Context := mkCtx [("split-count", "-1")]

def ctxMinSplitAbc : Context := mkCtx [("min-split", "abc")]

def ctxEmptyValues : Context := mkCtx [("min-split", ""), ("split-count", "")]

def ctxProj2 : Context := mkCtx [("project", "proj2")]

def ctxQuietFalse : Context := mkCtx [("quiet", "")]

def ctxArr : Context := mkCtx [("exclusions", "a;b;c")]

def ctxHex : Context := mkCtx [("retries", "0x1A")]

def ctxBadInt : Context := mkCtx [("retries", "zz")]

def envCITrue : Env := fun k => if k = "CI" then "true" else ""

def envCIBad : Env := fun k => if k = "CI" then "maybe" else ""

def envEmpty : Env := fun _ => ""

def envProj1 : Env := fun k => if k = "JFROG_CLI_PROJECT" then "proj1" else ""

def cmdToFlagsEx : List (String × List String) := [("build", ["threads", "quiet"])]

def flagsMapEx : String → Flag := fun n => ⟨n⟩

/-! ### Helper lemmas -/

theorem goParseInt10_empty : goParseInt10 "" = (0, some GoErr.syntaxErr) := by decide

theorem goParseInt10_ne_empty {s : String} {n : Int} (h : goParseInt10 s = (n, none)) :
    s ≠ "" := by
  intro he
  subst he
  rw [goParseInt10_empty] at h
  simp at h

theorem getSplitCount_eq {c : Context} {v : Int} {e : Option GoErr}
    (hne : c.GetStringFlagValue "split-count" ≠ "")
    (h : goParseInt10 (c.GetStringFlagValue "split-count") = (v, e)) :
    getSplitCount c DownloadSplitCount DownloadMaxSplitCount =
      (v, if v < 0 then some splitCountNegMsg
          else if v > DownloadMaxSplitCount then some (splitCountMaxMsg DownloadMaxSplitCount)
          else if e.isSome then some splitCountNumericMsg
          else none) := by
  unfold getSplitCount
  rw [if_pos hne, h]
  cases e with
  | none =>
    by_cases h0 : v < 0 <;> by_cases h1 : v > DownloadMaxSplitCount <;>
      simp [h0, h1]
  | some ge =>
    by_cases h0 : v < 0 <;> by_cases h1 : v > DownloadMaxSplitCount <;>
      simp [h0, h1]

theorem getSplitCount_empty {c : Context} (h : c.GetStringFlagValue "split-count" = "") :
    ∀ d m : Int, getSplitCount c d m = (d, none) := by
  intro d m
  unfold getSplitCount
  rw [if_neg]
  simp [h]

theorem getMinSplit_empty {c : Context} (h : c.GetStringFlagValue minSplit = "") :
    ∀ d : Int, getMinSplit c d = (d, none) := by
  intro d
  unfold getMinSplit
  rw [if_neg]
  simp [h]

theorem getMinSplit_ok {c : Context} {v : Int}
    (h : goParseInt10 (c.GetStringFlagValue minSplit) = (v, none)) :
    ∀ d : Int, getMinSplit c d = (v, none) := by
  intro d
  unfold getMinSplit
  rw [if_pos (goParseInt10_ne_empty h), h]

theorem getMinSplit_err {c : Context} {v : Int} {e : GoErr}
    (hne : c.GetStringFlagValue minSplit ≠ "")
    (h : goParseInt10 (c.GetStringFlagValue minSplit) = (v, some e)) :
    ∀ d : Int, getMinSplit c d = (0, some minSplitNumericMsg) := by
  intro d
  unfold getMinSplit
  rw [if_pos hne, h]

theorem create_ok (tc : String → Int × Option String) {c : Context} {ms sc th : Int}
    (h1 : getMinSplit c DownloadMinSplitKb = (ms, none))
    (h2 : getSplitCount c DownloadSplitCount DownloadMaxSplitCount = (sc, none))
    (h3 : tc (c.GetStringFlagValue "threads") = (th, none)) :
    CreateDownloadConfiguration tc c =
      (some ⟨ms, sc, th, c.GetBoolFlagValue "skip-checksum", true⟩, none) := by
  unfold CreateDownloadConfiguration GetThreadsCount
  rw [h1, h2, h3]

theorem create_minSplit_err (tc : String → Int × Option String) {c : Context} {v : Int} {e : String}
    (h1 : getMinSplit c DownloadMinSplitKb = (v, some e)) :
    CreateDownloadConfiguration tc c = (none, some e) := by
  unfold CreateDownloadConfiguration
  rw [h1]

/-! ### Claim theorems -/

/-- Claim C1: whenever the split-count flag value parses (base 10) to an
integer n with 0 ≤ n ≤ 15, `getSplitCount` returns n with no error and
`CreateDownloadConfiguration` places n in the SplitCount field of the
returned record (given the other steps succeed); whenever it parses to
n > 15 or n < 0, a validation error is returned; when the flag value is
empty the split count is the default 3. -/
theorem C1_split_count_bounds (c : Context) (tc : String → Int × Option String) (n : Int) :
    (goParseInt10 (c.GetStringFlagValue "split-count") = (n, none) →
      0 ≤ n → n ≤ DownloadMaxSplitCount →
      getSplitCount c DownloadSplitCount DownloadMaxSplitCount = (n, none) ∧
      (∀ ms th : Int, getMinSplit c DownloadMinSplitKb = (ms, none) →
        tc (c.GetStringFlagValue "threads") = (th, none) →
        CreateDownloadConfiguration tc c =
          (some ⟨ms, n, th, c.GetBoolFlagValue "skip-checksum", true⟩, none))) ∧
    (goParseInt10 (c.GetStringFlagValue "split-count") = (n, none) →
      (DownloadMaxSplitCount < n ∨ n < 0) →
      (getSplitCount c DownloadSplitCount DownloadMaxSplitCount).2.isSome = true) ∧
    (c.GetStringFlagValue "split-count" = "" →
      getSplitCount c DownloadSplitCount DownloadMaxSplitCount = (DownloadSplitCount, none) ∧
      DownloadSplitCount = 3) := by
  refine ⟨?_, ?_, ?_⟩
  · intro h h0 h15
    have hs := getSplitCount_eq (goParseInt10_ne_empty h) h
    rw [if_neg (not_lt.mpr h0), if_neg (not_lt.mpr h15)] at hs
    simp only [Option.isSome_none, Bool.false_eq_true, if_false] at hs
    exact ⟨hs, fun ms th h1 h3 => create_ok tc h1 hs h3⟩
  · intro h hd
    rw [getSplitCount_eq (goParseInt10_ne_empty h) h]
    rcases hd with hh | hh
    · by_cases hn : n < 0 <;> simp [hn, hh]
    · simp [hh]
  · intro h
    exact ⟨getSplitCount_empty h DownloadSplitCount DownloadMaxSplitCount, rfl⟩

/-- Witness for C1: split-count "7" yields 7 and a configuration whose
SplitCount is 7; "16" and "-1" yield errors; an empty value yields the
default. -/
theorem C1_split_count_bounds_witness :
    getSplitCount ctxSplit7 DownloadSplitCount DownloadMaxSplitCount = (7, none) ∧
    CreateDownloadConfiguration tcOk ctxSplit7 =
      (some ⟨DownloadMinSplitKb, 7, 3, ctxSplit7.GetBoolFlagValue "skip-checksum", true⟩, none) ∧
    (getSplitCount ctxSplit16 DownloadSplitCount DownloadMaxSplitCount).2.isSome = true ∧
    (getSplitCount ctxSplitNeg1 DownloadSplitCount DownloadMaxSplitCount).2.isSome = true ∧
    getSplitCount ctxEmpty DownloadSplitCount DownloadMaxSplitCount = (DownloadSplitCount, none) := by
  refine ⟨?_, ?_, ?_, ?_, ?_⟩
  · exact ((C1_split_count_bounds ctxSplit7 tcOk 7).1 (by decide) (by decide) (by decide)).1
  · exact ((C1_split_count_bounds ctxSplit7 tcOk 7).1 (by decide) (by decide) (by decide)).2
      DownloadMinSplitKb 3 (by decide) (by decide)
  · exact (C1_split_count_bounds ctxSplit16 tcOk 16).2.1 (by decide) (Or.inl (by decide))
  · exact (C1_split_count_bounds ctxSplitNeg1 tcOk (-1)).2.1 (by decide) (Or.inr (by decide))
  · exact ((C1_split_count_bounds ctxEmpty tcOk 0).2.2 (by decide)).1

/-- Claim C2: with the min-split flag unset (empty string value) the
minimum split size is 5120; with a non-empty value that fails the base-10
parse, `getMinSplit` returns a validation error whose message contains the
documentation URL, and `CreateDownloadConfiguration` returns no
configuration record. -/
theorem C2_min_split_default_and_error (c : Context) (tc : String → Int × Option String) :
    (c.GetStringFlagValue minSplit = "" →
      getMinSplit c DownloadMinSplitKb = (5120, none)) ∧
    (c.GetStringFlagValue minSplit ≠ "" →
      (goParseInt10 (c.GetStringFlagValue minSplit)).2.isSome = true →
      getMinSplit c DownloadMinSplitKb = (0, some minSplitNumericMsg) ∧
      (∃ pre post : String, minSplitNumericMsg = pre ++ (JFrogHelpUrl ++ post)) ∧
      CreateDownloadConfiguration tc c = (none, some minSplitNumericMsg)) := by
  constructor
  · intro h
    exact getMinSplit_empty h DownloadMinSplitKb
  · intro hne hsome
    rcases hp : goParseInt10 (c.GetStringFlagValue minSplit) with ⟨v, e⟩
    cases e with
    | none => rw [hp] at hsome; simp at hsome
    | some ge =>
      have hm := getMinSplit_err hne hp DownloadMinSplitKb
      exact ⟨hm,
        ⟨"The '--min-split' option should have a numeric value. You can read the documentation at ",
         "jfrog-cli", by decide⟩,
        create_minSplit_err tc hm⟩

/-- Witness for C2: min-split unset gives 5120; min-split "abc" gives the
documentation-bearing error and a nil configuration. -/
theorem C2_min_split_default_and_error_witness :
    getMinSplit ctxEmpty DownloadMinSplitKb = (5120, none) ∧
    getMinSplit ctxMinSplitAbc DownloadMinSplitKb = (0, some minSplitNumericMsg) ∧
    CreateDownloadConfiguration tcOk ctxMinSplitAbc = (none, some minSplitNumericMsg) := by
  refine ⟨(C2_min_split_default_and_error ctxEmpty tcOk).1 (by decide), ?_, ?_⟩
  · exact ((C2_min_split_default_and_error ctxMinSplitAbc tcOk).2 (by decide) (by decide)).1
  · exact ((C2_min_split_default_and_error ctxMinSplitAbc tcOk).2 (by decide) (by decide)).2.2

/-- Claim C3: for every supplied (non-empty) split-count value the error of
`getSplitCount` is decided by the last violated check — negative first,
then maximum, then the numeric parse — so a negative value always yields
the negative-value error and never the maximum error. -/
theorem C3_last_check_wins (c : Context) :
    c.GetStringFlagValue "split-count" ≠ "" →
    ((getSplitCount c DownloadSplitCount DownloadMaxSplitCount).2 =
      (if (goParseInt10 (c.GetStringFlagValue "split-count")).1 < 0 then some splitCountNegMsg
       else if (goParseInt10 (c.GetStringFlagValue "split-count")).1 > DownloadMaxSplitCount then
         some (splitCountMaxMsg DownloadMaxSplitCount)
       else if (goParseInt10 (c.GetStringFlagValue "split-count")).2.isSome then
         some splitCountNumericMsg
       else none) ∧
     (∀ n : Int, goParseInt10 (c.GetStringFlagValue "split-count") = (n, none) → n < 0 →
       (getSplitCount c DownloadSplitCount DownloadMaxSplitCount).2 = some splitCountNegMsg) ∧
     splitCountNegMsg ≠ splitCountMaxMsg DownloadMaxSplitCount) := by
  intro hne
  refine ⟨?_, ?_, by decide⟩
  · rcases hp : goParseInt10 (c.GetStringFlagValue "split-count") with ⟨v, e⟩
    rw [getSplitCount_eq hne hp]
  · intro n hp hneg
    rw [getSplitCount_eq hne hp]
    dsimp only
    rw [if_pos hneg]

/-- Witness for C3: split-count "-1" yields the negative-value error, not
the maximum error. -/
theorem C3_last_check_wins_witness :
    (getSplitCount ctxSplitNeg1 DownloadSplitCount DownloadMaxSplitCount).2 =
      some splitCountNegMsg := by
  exact (C3_last_check_wins ctxSplitNeg1 (by decide)).2.1 (-1) (by decide) (by decide)

/-- Claim C4: an explicitly set quiet flag decides the result (overriding
any CI environment setting); with the flag unset the result is true iff
the CI variable parses as a true boolean, and false — never an error —
when the variable is unset or unparseable. -/
theorem C4_quiet_flag_overrides_ci (c : Context) (env : Env) :
    (c.IsFlagSet "quiet" = true → GetQuietValue c env = c.GetBoolFlagValue "quiet") ∧
    (c.IsFlagSet "quiet" = false →
      (GetQuietValue c env = true ↔ goParseBool (env coreutilsCI) = some true) ∧
      (env coreutilsCI = "" → GetQuietValue c env = false) ∧
      (goParseBool (env coreutilsCI) = none → GetQuietValue c env = false)) := by
  constructor
  · intro h
    simp [GetQuietValue, h]
  · intro h
    have hq : GetQuietValue c env = getCiValue env := by simp [GetQuietValue, h]
    by_cases he : env coreutilsCI = ""
    · have h1 : getCiValue env = false := by simp [getCiValue, GetBoolEnvValue, he]
      have h2 : goParseBool (env coreutilsCI) = none := by rw [he]; decide
      rw [hq, h1, h2]
      simp
    · cases hb : goParseBool (env coreutilsCI) with
      | none =>
        have h1 : getCiValue env = false := by simp [getCiValue, GetBoolEnvValue, he, hb]
        rw [hq, h1]
        simp
      | some b =>
        have h1 : getCiValue env = b := by simp [getCiValue, GetBoolEnvValue, he, hb]
        rw [hq, h1]
        exact ⟨by simp, fun hee => absurd hee he, fun hn => Option.noConfusion hn⟩

/-- Witness for C4: CI="true" with quiet unset gives true; CI="maybe" or
CI unset gives false; quiet explicitly false overrides CI="true". -/
theorem C4_quiet_flag_overrides_ci_witness :
    GetQuietValue ctxEmpty envCITrue = true ∧
    GetQuietValue ctxEmpty envCIBad = false ∧
    GetQuietValue ctxEmpty envEmpty = false ∧
    GetQuietValue ctxQuietFalse envCITrue = false := by
  refine ⟨?_, ?_, ?_, ?_⟩
  · exact ((C4_quiet_flag_overrides_ci ctxEmpty envCITrue).2 (by decide)).1.mpr (by decide)
  · exact ((C4_quiet_flag_overrides_ci ctxEmpty envCIBad).2 (by decide)).2.2 (by decide)
  · exact ((C4_quiet_flag_overrides_ci ctxEmpty envEmpty).2 (by decide)).2.1 (by decide)
  · have h := (C4_quiet_flag_overrides_ci ctxQuietFalse envCITrue).1 (by decide)
    rw [h]
    decide

/-- Claim C5: GetProject returns the project flag value whenever non-empty,
regardless of the environment; with an empty flag value it returns the
content of the project-key environment variable, and the empty string when
that is unset too. -/
theorem C5_project_flag_then_env (c : Context) (env : Env) :
    (c.GetStringFlagValue "project" ≠ "" → GetProject c env = c.GetStringFlagValue "project") ∧
    (c.GetStringFlagValue "project" = "" → GetProject c env = env coreutilsProject) ∧
    (c.GetStringFlagValue "project" = "" → env coreutilsProject = "" → GetProject c env = "") := by
  refine ⟨?_, ?_, ?_⟩
  · intro h
    simp [GetProject, getOrDefaultEnv, h]
  · intro h
    simp [GetProject, getOrDefaultEnv, h]
  · intro h1 h2
    simp [GetProject, getOrDefaultEnv, h1, h2]

/-- Witness for C5: empty flag with environment "proj1" gives "proj1";
flag "proj2" wins over the environment. -/
theorem C5_project_flag_then_env_witness :
    GetProject ctxEmpty envProj1 = "proj1" ∧ GetProject ctxProj2 envProj1 = "proj2" := by
  constructor
  · have h := (C5_project_flag_then_env ctxEmpty envProj1).2.1 (by decide)
    rw [h]
    decide
  · have h := (C5_project_flag_then_env ctxProj2 envProj1).1 (by decide)
    rw [h]
    decide

/-- Claim C6: an absent command key yields the logged error and an empty
flag list with no raised error; a present key yields, with nothing logged,
the listed flags' descriptors sorted ascending by name (a permutation of
the resolved descriptors). -/
theorem C6_command_flags_sorted (cmdKey : String) (commandToFlags : List (String × List String))
    (flagsMap : String → Flag) :
    (commandToFlags.lookup cmdKey = none →
      GetCommandFlags cmdKey commandToFlags flagsMap = ([], some (commandNotFoundMsg cmdKey))) ∧
    (∀ flagList, commandToFlags.lookup cmdKey = some flagList →
      (GetCommandFlags cmdKey commandToFlags flagsMap).2 = none ∧
      List.Sorted flagLe (GetCommandFlags cmdKey commandToFlags flagsMap).1 ∧
      List.Perm (GetCommandFlags cmdKey commandToFlags flagsMap).1 (flagList.map flagsMap)) := by
  constructor
  · intro h
    simp [GetCommandFlags, h]
  · intro fl h
    have hg : GetCommandFlags cmdKey commandToFlags flagsMap =
        (buildAndSortFlags fl flagsMap, none) := by
      simp [GetCommandFlags, h]
    rw [hg]
    exact ⟨rfl, List.sorted_insertionSort flagLe _, List.perm_insertionSort flagLe _⟩

/-- Witness for C6: the key "build" with flags ["threads", "quiet"] yields
the descriptors in the order "quiet", "threads"; an unknown key yields the
empty list and the logged message. -/
theorem C6_command_flags_sorted_witness :
    GetCommandFlags "build" cmdToFlagsEx flagsMapEx = ([⟨"quiet"⟩, ⟨"threads"⟩], none) ∧
    List.Sorted flagLe (GetCommandFlags "build" cmdToFlagsEx flagsMapEx).1 ∧
    GetCommandFlags "missing" cmdToFlagsEx flagsMapEx =
      ([], some (commandNotFoundMsg "missing")) := by
  refine ⟨by decide, ?_, ?_⟩
  · exact ((C6_command_flags_sorted "build" cmdToFlagsEx flagsMapEx).2
      ["threads", "quiet"] (by decide)).2.1
  · exact (C6_command_flags_sorted "missing" cmdToFlagsEx flagsMapEx).1 (by decide)

theorem goSplitList_ne_nil (sep : Char) : ∀ l : List Char, goSplitList sep l ≠ [] := by
  intro l
  induction l with
  | nil => simp [goSplitList]
  | cons c rest ih =>
    by_cases h : c = sep
    · simp [goSplitList, h]
    · simp only [goSplitList, if_neg h]
      cases hg : goSplitList sep rest with
      | nil => simp
      | cons g gs => simp

theorem goSplitList_length (sep : Char) :
    ∀ l : List Char, (goSplitList sep l).length = l.count sep + 1 := by
  intro l
  induction l with
  | nil => simp [goSplitList]
  | cons c rest ih =>
    by_cases h : c = sep
    · simp [goSplitList, h, List.count_cons, ih]
    · cases hg : goSplitList sep rest with
      | nil => exact absurd hg (goSplitList_ne_nil sep rest)
      | cons g gs =>
        rw [hg] at ih
        simp only [goSplitList, if_neg h, hg, List.length_cons, List.count_cons] at ih ⊢
        simp [h] at ih ⊢
        omega

/-- Claim C7: with the flag unset the result is the empty sequence; with
the flag set the result is the raw value split on every `;` in order, one
segment more than there are separators (so empty segments are kept). -/
theorem C7_strings_arr_split (c : Context) (flagName : String) :
    (c.IsFlagSet flagName = false → GetStringsArrFlagValue c flagName = []) ∧
    (c.IsFlagSet flagName = true →
      GetStringsArrFlagValue c flagName = goSplit (c.GetStringFlagValue flagName) ';' ∧
      (GetStringsArrFlagValue c flagName).length =
        (c.GetStringFlagValue flagName).data.count ';' + 1) := by
  constructor
  · intro h
    simp [GetStringsArrFlagValue, h]
  · intro h
    have hg : GetStringsArrFlagValue c flagName = goSplit (c.GetStringFlagValue flagName) ';' := by
      simp [GetStringsArrFlagValue, h]
    refine ⟨hg, ?_⟩
    rw [hg]
    unfold goSplit
    rw [List.length_map]
    exact goSplitList_length ';' _

/-- Witness for C7: an unset flag yields the empty sequence; "a;b;c"
yields ["a", "b", "c"], three segments for two separators. -/
theorem C7_strings_arr_split_witness :
    GetStringsArrFlagValue ctxEmpty "exclusions" = [] ∧
    GetStringsArrFlagValue ctxArr "exclusions" = ["a", "b", "c"] ∧
    (GetStringsArrFlagValue ctxArr "exclusions").length = 3 := by
  refine ⟨(C7_strings_arr_split ctxEmpty "exclusions").1 (by decide), by decide, ?_⟩
  have h := ((C7_strings_arr_split ctxArr "exclusions").2 (by decide)).2
  rw [h]
  decide

/-- Claim C8: OverrideIntIfSet leaves the target unchanged when the flag is
unset, leaves it unchanged with no error surfaced when the set value fails
the base-auto-detected parse, and assigns the parsed value exactly when the
flag is set and the parse succeeds. -/
theorem C8_override_int_lenient (field : Int) (c : Context) (fieldName : String) :
    (c.IsFlagSet fieldName = false → OverrideIntIfSet field c fieldName = field) ∧
    (c.IsFlagSet fieldName = true → goParseInt0 (c.GetStringFlagValue fieldName) = none →
      OverrideIntIfSet field c fieldName = field) ∧
    (∀ v : Int, c.IsFlagSet fieldName = true →
      goParseInt0 (c.GetStringFlagValue fieldName) = some v →
      OverrideIntIfSet field c fieldName = v) := by
  refine ⟨?_, ?_, ?_⟩ <;> intros <;> simp [OverrideIntIfSet, *]

/-- Witness for C8: unset flag and unparseable "zz" both keep the target 9;
the hexadecimal literal "0x1A" assigns 26. -/
theorem C8_override_int_lenient_witness :
    OverrideIntIfSet 9 ctxEmpty "retries" = 9 ∧
    OverrideIntIfSet 9 ctxBadInt "retries" = 9 ∧
    OverrideIntIfSet 9 ctxHex "retries" = 26 :=
  ⟨(C8_override_int_lenient 9 ctxEmpty "retries").1 (by decide),
   (C8_override_int_lenient 9 ctxBadInt "retries").2.1 (by decide) (by decide),
   (C8_override_int_lenient 9 ctxHex "retries").2.2 26 (by decide) (by decide)⟩

/-- Claim C9: getMinSplit and getSplitCount test emptiness of the value,
not explicit presence: a flag explicitly set to the empty string behaves
as unsupplied — the defaults 5120 and 3 are used and no validation error is
raised. -/
theorem C9_empty_value_means_default (c : Context) :
    c.IsFlagSet minSplit = true → c.IsFlagSet "split-count" = true →
    c.GetStringFlagValue minSplit = "" → c.GetStringFlagValue "split-count" = "" →
    getMinSplit c DownloadMinSplitKb = (DownloadMinSplitKb, none) ∧
    getSplitCount c DownloadSplitCount DownloadMaxSplitCount = (DownloadSplitCount, none) := by
  intro _ _ h1 h2
  exact ⟨getMinSplit_empty h1 DownloadMinSplitKb,
    getSplitCount_empty h2 DownloadSplitCount DownloadMaxSplitCount⟩

/-- Witness for C9: a context with both flags explicitly set to the empty
string yields both defaults with no error. -/
theorem C9_empty_value_means_default_witness :
    getMinSplit ctxEmptyValues DownloadMinSplitKb = (DownloadMinSplitKb, none) ∧
    getSplitCount ctxEmptyValues DownloadSplitCount DownloadMaxSplitCount =
      (DownloadSplitCount, none) :=
  C9_empty_value_means_default ctxEmptyValues (by decide) (by decide) (by decide) (by decide)

/-- Claim C10: whenever CreateDownloadConfiguration returns an error, the
returned configuration is nil — no partially populated record reaches the
caller. -/
theorem C10_nil_config_on_error (tc : String → Int × Option String) (c : Context) :
    (CreateDownloadConfiguration tc c).2.isSome = true →
    (CreateDownloadConfiguration tc c).1 = none := by
  unfold CreateDownloadConfiguration
  rcases getMinSplit c DownloadMinSplitKb with ⟨ms, _ | e1⟩
  · rcases getSplitCount c DownloadSplitCount DownloadMaxSplitCount with ⟨sc, _ | e2⟩
    · rcases GetThreadsCount tc c with ⟨th, _ | e3⟩
      · intro h
        simp at h
      · intro _
        rfl
    · intro _
      rfl
  · intro _
    rfl

/-- Witness for C10: with min-split "abc" the operation errors and the
configuration component is nil. -/
theorem C10_nil_config_on_error_witness :
    (CreateDownloadConfiguration tcOk ctxMinSplitAbc).1 = none :=
  C10_nil_config_on_error tcOk ctxMinSplitAbc (by decide)

end Common
